import Mathlib

/-!
Shallow embedding of the socket_chat program (src/main.rs) and proofs of
the specified properties. The program is a two-party line-oriented chat:
a background task establishes a TCP connection and runs a line relay
(handle_socket), while the foreground thread runs a terminal UI loop
(ui_loop). The two sides communicate through two FIFO queues.
-/

/-- Outcome of the single next_line() read in the select loop of
handle_socket: a decoded line, end of stream, or a read error. -/
inductive ReadResult where
  | line (s : String)
  | eof
  | err (e : String)
deriving DecidableEq, Repr

/-- One command sitting in the outbound queue when a tick fires, paired
with the environment response to the write_all of its formatted bytes:
none means the write succeeds, some e means write_all fails with error e. -/
structure QueuedCmd where
  msg : String
  writeErr : Option String
deriving DecidableEq, Repr

/-- One resolution of the select race in handle_socket: either the read
arm resolves with a ReadResult, or the 50 ms sleep arm resolves and the
outbound queue holds the given commands. -/
inductive SockEvent where
  | read (r : ReadResult)
  | tick (queue : List QueuedCmd)
deriving DecidableEq, Repr

/-- How a run of handle_socket over a finite event trace ended: the trace
was exhausted with the loop still live, or the function returned, with
true standing for the Ok result. -/
inductive PipeEnd where
  | running
  | returned (ok : Bool)
deriving DecidableEq, Repr

/-- Observable outcome of handle_socket over an event trace: the strings
sent to the UI queue in order, the byte chunks written to the socket in
order (one chunk per write_all call), and how the run ended. -/
structure PipeResult where
  uiLines : List String
  writes : List String
  ending : PipeEnd
deriving DecidableEq, Repr

/-- The line formatted for transmission in handle_socket, from the
format call building the name, a colon and space, the message, and a
newline (src/main.rs line 124). -/
def formatOutbound (name msg : String) : String :=
  name ++ ": " ++ msg ++ "\n"

/-- The drain loop in the tick arm of handle_socket (src/main.rs lines
121-131): pop commands while try_recv succeeds; write each formatted
line; on a write error send a status line to the UI queue and stop.
Returns the chunks written, the status lines sent, and whether the
function returned early because of a write error. -/
def tickDrain (name : String) : List QueuedCmd → List String × List String × Bool
  | [] => ([], [], false)
  | c :: rest =>
    match c.writeErr with
    | none =>
      let r := tickDrain name rest
      (formatOutbound name c.msg :: r.1, r.2.1, r.2.2)
    | some e => ([], ["--- Socket write error: " ++ e ++ " ---"], true)

/-- The session relay loop handle_socket (src/main.rs lines 91-137),
run over a finite trace of select resolutions. A decoded line is sent
verbatim to the UI queue; end of stream sends a closed-by-peer status
line, breaks, and the function returns Ok; a read error sends an error
status line, breaks, and the function returns Ok; a tick drains the
outbound queue, and a write error during the drain makes the function
return Ok at once. -/
def handleSocket (name : String) : List SockEvent → PipeResult
  | [] => ⟨[], [], PipeEnd.running⟩
  | SockEvent.read r :: rest =>
    match r with
    | ReadResult.line s =>
      let res := handleSocket name rest
      ⟨s :: res.uiLines, res.writes, res.ending⟩
    | ReadResult.eof =>
      ⟨["--- Connection closed by peer ---"], [], PipeEnd.returned true⟩
    | ReadResult.err e =>
      ⟨["--- Socket read error: " ++ e ++ " ---"], [], PipeEnd.returned true⟩
  | SockEvent.tick queue :: rest =>
    let d := tickDrain name queue
    if d.2.2 then
      ⟨d.2.1, d.1, PipeEnd.returned true⟩
    else
      let res := handleSocket name rest
      ⟨d.2.1 ++ res.uiLines, d.1 ++ res.writes, res.ending⟩

/-- An event that neither breaks nor returns from the handle_socket
loop: a successfully decoded line, or a tick whose queued writes all
succeed. -/
def eventOk : SockEvent → Bool
  | SockEvent.read (ReadResult.line _) => true
  | SockEvent.read ReadResult.eof => false
  | SockEvent.read (ReadResult.err _) => false
  | SockEvent.tick queue => queue.all (fun c => c.writeErr.isNone)

/-- Whitespace as Rust char is_whitespace defines it: the Unicode
White_Space property. -/
def isRustWhitespace (c : Char) : Bool :=
  (0x09 ≤ c.val && c.val ≤ 0x0d) || c.val == 0x20 || c.val == 0x85 ||
  c.val == 0xa0 || c.val == 0x1680 || (0x2000 ≤ c.val && c.val ≤ 0x200a) ||
  c.val == 0x2028 || c.val == 0x2029 || c.val == 0x202f ||
  c.val == 0x205f || c.val == 0x3000

/-- Rust str trim: remove leading and trailing whitespace characters. -/
def rustTrim (s : String) : String :=
  ⟨((s.data.dropWhile isRustWhitespace).reverse.dropWhile isRustWhitespace).reverse⟩

/-- Local state of ui_loop (src/main.rs lines 162-163): the message
history vector and the input buffer. -/
structure UiState where
  messages : List String
  input : String
deriving DecidableEq, Repr

/-- Key codes distinguished by the match in ui_loop (src/main.rs lines
206-224); other stands for the catch-all arm. -/
inductive Key where
  | char (c : Char)
  | backspace
  | enter
  | esc
  | other
deriving DecidableEq, Repr

/-- One observable side effect of the key handler, in program order: a
push onto the message history, a send on the outbound command channel,
or a clear of the input buffer. -/
inductive UiEffect where
  | histAppend (s : String)
  | enqueue (s : String)
  | clearInput
deriving DecidableEq, Repr

/-- Rust String pop: remove the last character, no-op on empty. -/
def strPop (s : String) : String := s.dropRight 1

/-- The key-press handler of ui_loop (src/main.rs lines 206-224),
returning the new state, the list of side effects in the order the code
performs them, and whether the loop exits. On enter with non-empty
trimmed input the code pushes the echoed line onto the history, then
sends the untrimmed text on the outbound channel, then clears the
buffer. -/
def handleKey (myName : String) (st : UiState) (k : Key) :
    UiState × List UiEffect × Bool :=
  match k with
  | Key.char c => ({ st with input := st.input.push c }, [], false)
  | Key.backspace => ({ st with input := strPop st.input }, [], false)
  | Key.enter =>
    if !(rustTrim st.input).isEmpty then
      let toSend := st.input
      let echoed := myName ++ ": " ++ toSend
      ({ messages := st.messages ++ [echoed], input := "" },
       [UiEffect.histAppend echoed, UiEffect.enqueue toSend, UiEffect.clearInput],
       false)
    else
      (st, [], false)
  | Key.esc =>
    ({ st with messages := st.messages ++ ["--- Exiting ---"] },
     [UiEffect.histAppend "--- Exiting ---"], true)
  | Key.other => (st, [], false)

/-- The inbound drain at the top of each ui_loop cycle (src/main.rs
lines 168-170): push every line available on the UI queue onto the
message history, in arrival order. -/
def drainInbound (msgs : List String) (incoming : List String) : List String :=
  incoming.foldl (fun acc line => acc ++ [line]) msgs

/-- The display window computed at render time (src/main.rs lines
180-186): reverse, take 1000, reverse, so the most recent 1000 history
lines in order. Storage itself is not truncated. -/
def renderWindow (messages : List String) : List String :=
  ((messages.reverse.take 1000).reverse)

/-- Decides whether effect a occurs strictly before effect b in an
effect trace. -/
def effPrecedes (xs : List UiEffect) (a b : UiEffect) : Bool :=
  xs.contains a && xs.contains b && decide (xs.indexOf a < xs.indexOf b)

/-- Result of the client connect attempt in run_client (src/main.rs
line 84). -/
inductive ConnectOutcome where
  | success
  | failure (e : String)
deriving DecidableEq, Repr

/-- Process-level outcome of a run in client mode: the lines printed to
the error stream, whether the interactive loop (run_ui) was entered, and
whether the process exit status is non-zero. -/
structure ProcessResult where
  stderrLines : List String
  enteredInteractiveLoop : Bool
  exitNonZero : Bool
deriving DecidableEq, Repr

/-- Control flow of main in client mode (src/main.rs lines 38-60 and
77-89). If the address fails to parse, main returns the error and the
process exits non-zero before the UI starts. Otherwise the connection
attempt runs in a spawned background task whose error is only printed to
the error stream, and run_ui is entered unconditionally; the process
exit status is that of run_ui, zero when the user cancels. -/
def mainClientFlow (addrParseErr : Option String) (conn : ConnectOutcome)
    (uiOk : Bool) : ProcessResult :=
  match addrParseErr with
  | some e => ⟨["Error: " ++ e], false, true⟩
  | none =>
    let taskStderr := match conn with
      | ConnectOutcome.success => []
      | ConnectOutcome.failure e => ["client error: " ++ e]
    ⟨taskStderr, true, !uiOk⟩

/-- On a queue whose writes all succeed, the tick drain writes every
command, formatted, in FIFO order, sends no status line, and does not
abort. -/
theorem tickDrain_ok (name : String) (q : List QueuedCmd)
    (h : q.all (fun c => c.writeErr.isNone) = true) :
    tickDrain name q = (q.map (fun c => formatOutbound name c.msg), [], false) := by
  induction q with
  | nil => rfl
  | cons c rest ih =>
    simp only [List.all_cons, Bool.and_eq_true] at h
    obtain ⟨hc, hrest⟩ := h
    obtain ⟨cm, cw⟩ := c
    cases cw with
    | none => simp [tickDrain, ih hrest]
    | some e => simp at hc

/-- If every command before position k writes successfully and the
command at position k fails, the tick drain writes exactly the first k
formatted commands, sends exactly one write-error status line, and
aborts, never reaching the commands after position k. -/
theorem tickDrain_err (name : String) (pre : List QueuedCmd) (m e : String)
    (post : List QueuedCmd)
    (h : pre.all (fun c => c.writeErr.isNone) = true) :
    tickDrain name (pre ++ ⟨m, some e⟩ :: post) =
      (pre.map (fun c => formatOutbound name c.msg),
       ["--- Socket write error: " ++ e ++ " ---"], true) := by
  induction pre with
  | nil => rfl
  | cons c rest ih =>
    simp only [List.all_cons, Bool.and_eq_true] at h
    obtain ⟨hc, hrest⟩ := h
    obtain ⟨cm, cw⟩ := c
    cases cw with
    | none => simp [tickDrain, ih hrest]
    | some e2 => simp at hc

/-- Running handle_socket on a trace whose first half consists only of
non-terminating events concatenates the observations of the two halves;
the ending comes from the second half. -/
theorem handleSocket_ok_append (name : String) (pre rest : List SockEvent)
    (h : pre.all eventOk = true) :
    handleSocket name (pre ++ rest) =
      ⟨(handleSocket name pre).uiLines ++ (handleSocket name rest).uiLines,
       (handleSocket name pre).writes ++ (handleSocket name rest).writes,
       (handleSocket name rest).ending⟩ := by
  induction pre with
  | nil => simp [handleSocket]
  | cons ev pre ih =>
    simp only [List.all_cons, Bool.and_eq_true] at h
    obtain ⟨hev, hpre⟩ := h
    cases ev with
    | read r =>
      cases r with
      | line s => simp [handleSocket, ih hpre]
      | eof => simp [eventOk] at hev
      | err e => simp [eventOk] at hev
    | tick q =>
      have hq : q.all (fun c => c.writeErr.isNone) = true := hev
      simp [handleSocket, tickDrain_ok name q hq, ih hpre]

/-- A trace consisting only of successfully decoded lines relays exactly
those lines to the UI queue, writes nothing, and leaves the loop
running. -/
theorem handleSocket_pure_lines (name : String) (lines : List String) :
    handleSocket name (lines.map (fun s => SockEvent.read (ReadResult.line s))) =
      ⟨lines, [], PipeEnd.running⟩ := by
  induction lines with
  | nil => rfl
  | cons s rest ih => simp [handleSocket, ih]

/-- Draining the inbound queue appends the incoming lines to the
history, in arrival order. -/
theorem drainInbound_append (msgs incoming : List String) :
    drainInbound msgs incoming = msgs ++ incoming := by
  induction incoming generalizing msgs with
  | nil => simp [drainInbound]
  | cons s rest ih =>
    simp only [drainInbound, List.foldl_cons] at *
    rw [ih]
    simp

/-- C1 counterexample: with a well-parsed address, a refused client
connection only prints to the error stream from the background task; the
interactive loop is still entered and a user cancel exits with status
zero, contrary to the claim of a non-zero exit before the interactive
loop. -/
theorem clientConnectFail_entersUI_exitZero :
    mainClientFlow none (ConnectOutcome.failure "Connection refused (os error 111)") true =
      ⟨["client error: Connection refused (os error 111)"], true, false⟩ := rfl

/-- C1, amended: a failed client connection makes the background task
print a client error line to the error stream, but the process still
enters the interactive loop and its exit status is that of the
interactive loop alone; only an address parse failure exits non-zero
before the interactive loop. -/
theorem clientFlow_behavior (e pe : String) (conn : ConnectOutcome) (uiOk : Bool) :
    mainClientFlow none (ConnectOutcome.failure e) uiOk =
      ⟨["client error: " ++ e], true, !uiOk⟩
    ∧ mainClientFlow (some pe) conn uiOk = ⟨["Error: " ++ pe], false, true⟩ :=
  ⟨rfl, rfl⟩

/-- C2 counterexample: on a mid-session read error, handle_socket sends
a read-error status line and returns Ok, contrary to the claim that it
does not return Ok there. -/
theorem handleSocket_readError_returnsOk :
    handleSocket "you" [SockEvent.read (ReadResult.err "connection reset")] =
      ⟨["--- Socket read error: connection reset ---"], [], PipeEnd.returned true⟩ := rfl

/-- C2, amended: handle_socket returns Ok on every termination path,
clean peer close, mid-session read error, and write error alike; it
never returns an Err, errors being surfaced only as status lines on the
inbound display queue. -/
theorem handleSocket_never_err (name : String) (events : List SockEvent) :
    (handleSocket name events).ending = PipeEnd.running
    ∨ (handleSocket name events).ending = PipeEnd.returned true := by
  induction events with
  | nil => left; rfl
  | cons ev rest ih =>
    cases ev with
    | read r =>
      cases r with
      | line s =>
        cases ih with
        | inl h => left; simpa [handleSocket] using h
        | inr h => right; simpa [handleSocket] using h
      | eof => right; rfl
      | err e => right; rfl
    | tick q =>
      by_cases hq : (tickDrain name q).2.2 = true
      · right; simp [handleSocket, hq]
      · cases ih with
        | inl h => left; simp [handleSocket, hq]; simpa using h
        | inr h => right; simp [handleSocket, hq]; simpa using h

/-- C3 counterexample: submitting the non-empty input string hi pushes
the echoed line onto the history first and enqueues the outbound text
second, so the enqueue does not precede the history append as the claim
states. -/
theorem enter_effects_order_cex :
    (rustTrim "hi").isEmpty = false
    ∧ (handleKey "you" ⟨[], "hi"⟩ Key.enter).2.1 =
        [UiEffect.histAppend "you: hi", UiEffect.enqueue "hi", UiEffect.clearInput]
    ∧ effPrecedes (handleKey "you" ⟨[], "hi"⟩ Key.enter).2.1
        (UiEffect.enqueue "hi") (UiEffect.histAppend "you: hi") = false := by
  decide

/-- C3, amended: for every input buffer whose trimmed content is
non-empty, pressing enter appends exactly one locally-echoed line to the
message history and enqueues exactly one outbound command carrying the
untrimmed original text, with the history append happening before the
enqueue, and then clears the input buffer. -/
theorem enter_nonempty_effects (name : String) (st : UiState)
    (h : (rustTrim st.input).isEmpty = false) :
    handleKey name st Key.enter =
      (⟨st.messages ++ [name ++ ": " ++ st.input], ""⟩,
       [UiEffect.histAppend (name ++ ": " ++ st.input),
        UiEffect.enqueue st.input, UiEffect.clearInput], false) := by
  simp [handleKey, h]

/-- C3 witness. -/
theorem enter_nonempty_effects_wit :
    handleKey "you" ⟨[], "hi"⟩ Key.enter =
      (⟨["you: hi"], ""⟩,
       [UiEffect.histAppend "you: hi", UiEffect.enqueue "hi", UiEffect.clearInput],
       false) :=
  enter_nonempty_effects "you" ⟨[], "hi"⟩ (by decide)

/-- C4: when the tick arm fires with K queued commands all of whose
writes succeed, the drain is exhaustive: all K formatted lines are
written, in FIFO order, before any observation of the rest of the trace,
and the rest of the run is unaffected. -/
theorem tick_drains_all_fifo (name : String) (q : List QueuedCmd)
    (rest : List SockEvent)
    (h : q.all (fun c => c.writeErr.isNone) = true) :
    handleSocket name (SockEvent.tick q :: rest) =
      ⟨(handleSocket name rest).uiLines,
       q.map (fun c => formatOutbound name c.msg) ++ (handleSocket name rest).writes,
       (handleSocket name rest).ending⟩ := by
  simp [handleSocket, tickDrain_ok name q h]

/-- C4 witness. -/
theorem tick_drains_all_fifo_wit :
    handleSocket "you" [SockEvent.tick [⟨"a", none⟩, ⟨"b", none⟩]] =
      ⟨[], ["you: a\n", "you: b\n"], PipeEnd.running⟩ :=
  tick_drains_all_fifo "you" [⟨"a", none⟩, ⟨"b", none⟩] [] (by decide)

/-- C5: a trace of N successfully decoded lines is pushed verbatim, in
order, into the inbound display queue, and draining that queue appends
exactly those N lines, unmodified and in the same relative order, to the
message history. -/
theorem inbound_lines_verbatim_in_history (name : String) (msgs lines : List String) :
    (handleSocket name (lines.map (fun s => SockEvent.read (ReadResult.line s)))).uiLines = lines
    ∧ drainInbound msgs
        (handleSocket name (lines.map (fun s => SockEvent.read (ReadResult.line s)))).uiLines
        = msgs ++ lines := by
  rw [handleSocket_pure_lines]
  exact ⟨rfl, drainInbound_append msgs lines⟩

/-- C6: for every outbound text T under the display name alice, the
exact bytes of the single chunk written to the outbound half are the
name, a colon and a space, the untrimmed text, and one newline. -/
theorem outbound_bytes_exact (T : String) :
    handleSocket "alice" [SockEvent.tick [⟨T, none⟩]] =
      ⟨[], ["alice: " ++ T ++ "\n"], PipeEnd.running⟩ := by
  simp [handleSocket, tickDrain, formatOutbound]

/-- C7: pressing enter on an input buffer whose trimmed content is empty
enqueues nothing, appends nothing to the history, and leaves the state,
including the whitespace content of the buffer, unchanged. -/
theorem enter_whitespace_noop (name : String) (st : UiState)
    (h : (rustTrim st.input).isEmpty = true) :
    handleKey name st Key.enter = (st, [], false) := by
  simp [handleKey, h]

/-- C7 witness. -/
theorem enter_whitespace_noop_wit :
    handleKey "you" ⟨[], "  "⟩ Key.enter = (⟨[], "  "⟩, [], false) :=
  enter_whitespace_noop "you" ⟨[], "  "⟩ (by decide)

/-- C8: after any run of non-terminating events, end of stream on the
inbound half pushes exactly one closed-by-peer status line, ends the run
with the Ok return, and the events after it are never examined: the
outcome is independent of the rest of the trace. -/
theorem eof_single_status_no_more_reads (name : String) (pre post : List SockEvent)
    (h : pre.all eventOk = true) :
    handleSocket name (pre ++ SockEvent.read ReadResult.eof :: post) =
      ⟨(handleSocket name pre).uiLines ++ ["--- Connection closed by peer ---"],
       (handleSocket name pre).writes, PipeEnd.returned true⟩ := by
  rw [handleSocket_ok_append name pre (SockEvent.read ReadResult.eof :: post) h]
  simp [handleSocket]

/-- C8 witness. -/
theorem eof_single_status_no_more_reads_wit :
    handleSocket "you"
        ([SockEvent.read (ReadResult.line "hello")] ++
          SockEvent.read ReadResult.eof :: [SockEvent.read (ReadResult.line "later")]) =
      ⟨["hello", "--- Connection closed by peer ---"], [], PipeEnd.returned true⟩ :=
  eof_single_status_no_more_reads "you" [SockEvent.read (ReadResult.line "hello")]
    [SockEvent.read (ReadResult.line "later")] (by decide)

/-- C9: when a write fails during the tick drain, exactly one
write-error status line is pushed, the loop terminates at once with the
Ok return, the commands still queued after the failing one are never
written, and the rest of the trace is never examined. -/
theorem write_error_aborts_drain (name : String) (pre : List QueuedCmd)
    (m e : String) (post : List QueuedCmd) (rest : List SockEvent)
    (h : pre.all (fun c => c.writeErr.isNone) = true) :
    handleSocket name (SockEvent.tick (pre ++ ⟨m, some e⟩ :: post) :: rest) =
      ⟨["--- Socket write error: " ++ e ++ " ---"],
       pre.map (fun c => formatOutbound name c.msg), PipeEnd.returned true⟩ := by
  simp [handleSocket, tickDrain_err name pre m e post h]

/-- C9 witness. -/
theorem write_error_aborts_drain_wit :
    handleSocket "you"
        [SockEvent.tick ([⟨"a", none⟩] ++ ⟨"b", some "broken pipe"⟩ :: [⟨"c", none⟩]),
         SockEvent.read ReadResult.eof] =
      ⟨["--- Socket write error: broken pipe ---"], ["you: a\n"], PipeEnd.returned true⟩ :=
  write_error_aborts_drain "you" [⟨"a", none⟩] "b" "broken pipe" [⟨"c", none⟩]
    [SockEvent.read ReadResult.eof] (by decide)

/-- C10: the history storage is append-only, every mutation of the
message vector being an append at the tail, while each render shows the
most recent at most 1000 history lines in order. -/
theorem history_appendOnly_window1000 :
    (∀ messages : List String,
        renderWindow messages = messages.drop (messages.length - 1000)
        ∧ (renderWindow messages).length ≤ 1000)
    ∧ (∀ (name : String) (st : UiState) (k : Key),
        ∃ t, ((handleKey name st k).1).messages = st.messages ++ t)
    ∧ (∀ (msgs inc : List String), drainInbound msgs inc = msgs ++ inc) := by
  refine ⟨fun messages => ?_, fun name st k => ?_, fun msgs inc => drainInbound_append msgs inc⟩
  · have hw : renderWindow messages = messages.drop (messages.length - 1000) := by
      rw [renderWindow, ← List.rtake_eq_reverse_take_reverse]
      rfl
    refine ⟨hw, ?_⟩
    rw [hw, List.length_drop]
    omega
  · cases k with
    | char c => exact ⟨[], by simp [handleKey]⟩
    | backspace => exact ⟨[], by simp [handleKey]⟩
    | enter =>
      by_cases h : (rustTrim st.input).isEmpty = true
      · exact ⟨[], by simp [handleKey, h]⟩
      · refine ⟨[name ++ ": " ++ st.input], ?_⟩
        simp only [Bool.not_eq_true] at h
        simp [handleKey, h]
    | esc => exact ⟨["--- Exiting ---"], by simp [handleKey]⟩
    | other => exact ⟨[], by simp [handleKey]⟩
